import Mathlib

/-!
Verification of the KZG commitment cross-validation demo.

The program computes a KZG commitment to a short witness vector in two ways:
directly, by a multi-scalar multiplication of the domain-mapped (zero-padded)
witness against a Lagrange commitment key, and indirectly, by generating a
proof with the halo2 proving pipeline and extracting the advice-column
commitment from the proof transcript.  The two commitments are compared for
structural equality.

Scalar field: the BN254 scalar field, an integer modulo the 254-bit prime
`bnR` (`halo2curves::bn256::Fr`).  Curve points and their 32-byte canonical
serialization are external primitives of the cryptographic library; they are
modelled by the `CurveModel` structure below, which packages the group, the
codec, and the codec contract (fixed 32-byte encodings, decoding inverts
encoding on valid points).  A concrete instance `bnModel` (the cyclic group
of order `bnR` with little-endian 32-byte encodings, isomorphic as an
abstract group to BN254 G1) witnesses that the model is inhabited and makes
every definition executable.

Rust panics (`assert_eq!`, `expect`, out-of-bounds indexing) are modelled as
typed `Except` errors, named after the error kinds of the specification.
-/

/-- Order of the BN254 scalar field (`halo2curves::bn256::Fr`). -/
def bnR : Nat := 21888242871839275222246405745257275088548364400416034343698204186575808495617

/-- The scalar field of the curve: integers modulo the prime `bnR`. -/
abbrev Fr : Type := ZMod bnR

instance : NeZero bnR := ⟨by decide⟩

/-- Little-endian base-256 digits: `leBytes k n` is the `k`-byte little-endian
encoding of `n % 256^k`. -/
def leBytes : Nat → Nat → List Nat
  | 0, _ => []
  | k + 1, n => n % 256 :: leBytes k (n / 256)

/-- Value of a little-endian byte list. -/
def leVal (bs : List Nat) : Nat := bs.foldr (fun b acc => b + 256 * acc) 0

/-- Modelled from the spec: scalar/group primitives and canonical point
serialization are external (supplied by `halo2curves`, not reimplemented in
the repository).  `G` is the group of curve points (BN254 G1, written
additively), `enc`/`dec` are the canonical fixed-size 32-byte point codec
(`to_bytes`/`from_bytes`), with the library's contract: every encoding is
exactly 32 bytes and decoding inverts encoding on every (valid) point. -/
structure CurveModel where
  G : Type
  [grp : AddCommGroup G]
  [mod : Module Fr G]
  [deq : DecidableEq G]
  enc : G → List Nat
  dec : List Nat → Option G
  enc_len : ∀ p, (enc p).length = 32
  dec_enc : ∀ p, dec (enc p) = some p

attribute [instance] CurveModel.grp CurveModel.mod CurveModel.deq

/-- Little-endian 32-byte encoding of a scalar (used by the concrete model). -/
def bnEnc (p : Fr) : List Nat := leBytes 32 p.val

/-- Decoding for the concrete model: accepts exactly 32 bytes, each below 256,
whose little-endian value is a canonical (below-`bnR`) representative;
returns `none` otherwise. -/
def bnDec (bs : List Nat) : Option Fr :=
  if bs.length = 32 ∧ ∀ b ∈ bs, b < 256 then
    if leVal bs < bnR then some ((leVal bs : Nat) : Fr) else none
  else none

/-- Concrete instance of the external-primitive interface: the cyclic group of
order `bnR` (isomorphic as an abstract group to BN254 G1) with canonical
little-endian 32-byte encodings.  Not every 32-byte chunk decodes (values
at or above `bnR` are rejected), as with the real compressed point codec. -/
def bnModel : CurveModel where
  G := Fr
  enc := bnEnc
  dec := bnDec
  enc_len := by
    intro p
    have hlen : ∀ (k n : Nat), (leBytes k n).length = k := by
      intro k
      induction k with
      | zero => intro n; rfl
      | succ k ih => intro n; simp [leBytes, ih]
    exact hlen 32 p.val
  dec_enc := by
    intro p
    have hlen : ∀ (k n : Nat), (leBytes k n).length = k := by
      intro k
      induction k with
      | zero => intro n; rfl
      | succ k ih => intro n; simp [leBytes, ih]
    have hlt : ∀ (k n : Nat), ∀ b ∈ leBytes k n, b < 256 := by
      intro k
      induction k with
      | zero => intro n b hb; simp [leBytes] at hb
      | succ k ih =>
        intro n b hb
        simp only [leBytes, List.mem_cons] at hb
        rcases hb with hb | hb
        · subst hb; exact Nat.mod_lt _ (by decide)
        · exact ih _ b hb
    have hval : ∀ (k n : Nat), leVal (leBytes k n) = n % 256 ^ k := by
      intro k
      induction k with
      | zero => intro n; simp [leBytes, leVal, Nat.mod_one]
      | succ k ih =>
        intro n
        have hcons : leVal (leBytes (k + 1) n) = n % 256 + 256 * leVal (leBytes k (n / 256)) := rfl
        rw [hcons, ih, pow_succ', Nat.mod_mul]
    have hv : p.val < 256 ^ 32 := Nat.lt_trans (ZMod.val_lt p) (by decide)
    show bnDec (bnEnc p) = some p
    unfold bnDec bnEnc
    rw [if_pos ⟨hlen 32 p.val, hlt 32 p.val⟩, hval 32 p.val, Nat.mod_eq_of_lt hv,
      if_pos (ZMod.val_lt p)]
    exact congrArg some (ZMod.natCast_rightInverse p)

/-- Error kinds of the transcript read path (§4.4/§7): `transcriptUnderflow`
when fewer bytes than a full point encoding remain in the buffer,
`pointDecodeError` when a fixed-size chunk does not decode to a valid curve
point. -/
inductive TranscriptError where
  | transcriptUnderflow
  | pointDecodeError
  deriving DecidableEq

/-- The transcript's `read_point` (`Blake2bRead::read_point`, called at
`main.rs:41`): read exactly 32 bytes from the front of the buffer (fail with
underflow if fewer remain), decode them as a curve point (fail if the chunk
is not a valid encoding), and return the point with the rest of the buffer.
Absorbing the point into the transcript's hash state does not affect the
bytes read, so it is omitted. -/
def read_point (M : CurveModel) (buf : List Nat) :
    Except TranscriptError (M.G × List Nat) :=
  if (buf.take 32).length < 32 then .error .transcriptUnderflow
  else
    match M.dec (buf.take 32) with
    | none => .error .pointDecodeError
    | some p => .ok (p, buf.drop 32)

/-- Embeds `extract_commitments` (`main.rs:28-47`): initialize a transcript
reader on the proof bytes and read one point per advice column, in order,
collecting them into a vector.  The `expect` on a failed read is modelled as
propagating the typed transcript error. -/
def extract_commitments (M : CurveModel) :
    List Nat → Nat → Except TranscriptError (List M.G)
  | _, 0 => .ok []
  | proof, n + 1 =>
    match read_point M proof with
    | .error e => .error e
    | .ok (p, rest) =>
      match extract_commitments M rest n with
      | .error e => .error e
      | .ok ps => .ok (p :: ps)

/-- Modelled from the spec: the transcript codec's write mode
(`Blake2bWrite::write_point` followed by `finalize`, `main.rs:142-156`) —
each appended point's canonical 32-byte serialization is written to the
output buffer in order; finalization yields the accumulated buffer.  Hash
absorption does not alter the byte stream and is omitted. -/
def writePoints (M : CurveModel) : List M.G → List Nat
  | [] => []
  | p :: ps => M.enc p ++ writePoints M ps

/-- Error kind of the KZG commitment engine (§4.3/§7): commitment key and
evaluation vector lengths differ. -/
inductive KzgError where
  | lengthMismatch
  deriving DecidableEq

/-- Embeds `CommitmentKey` (`main.rs:50-52`): the precomputed Lagrange basis
points in G1. -/
structure CommitmentKey (G : Type) where
  lagranges : List G

/-- Multi-scalar multiplication (`VariableBaseMSM::msm(bases, scalars)`, an
external primitive): the sum of `scalars[i] • bases[i]`. -/
def msm (M : CurveModel) (bases : List M.G) (scalars : List Fr) : M.G :=
  (List.zipWith (fun s b => s • b) scalars bases).sum

/-- Embeds `plain_kzg_com` (`main.rs:55-59`): assert that the evaluation and
basis lengths agree (the `assert_eq!` panic is modelled as the typed
`lengthMismatch` error), then commit by MSM against the Lagrange basis. -/
def plain_kzg_com (M : CurveModel) (ck : CommitmentKey M.G) (evals : List Fr) :
    Except KzgError M.G :=
  if evals.length = ck.lagranges.length then .ok (msm M ck.lagranges evals)
  else .error .lengthMismatch

/-- Modelled from the spec: the KZG commitment engine of §4.3
(`ParamsKZG::commit_lagrange` with a `Blind`, `main.rs:188-193`, is library
code): `commit(key, evaluations, blind) = MSM(key.basis, evaluations)
+ blind • H` for a fixed independent generator `H`, with the stated
precondition that the evaluation and basis lengths agree, failing with
`lengthMismatch` otherwise. -/
def commit (M : CurveModel) (H : M.G) (ck : CommitmentKey M.G)
    (evals : List Fr) (blind : Fr) : Except KzgError M.G :=
  if evals.length = ck.lagranges.length then
    .ok (msm M ck.lagranges evals + blind • H)
  else .error .lengthMismatch

/-- Error kind of the witness-to-polynomial mapping (§4.1/§7): the witness is
longer than the evaluation domain. -/
inductive DomainError where
  | domainOverflow
  deriving DecidableEq

/-- Embeds `domain.empty_lagrange()` (`main.rs:180`): a length-`2^k` vector of
scalar-field zeros, the evaluations of the zero polynomial in Lagrange
form. -/
def empty_lagrange (k : Nat) : List Fr := List.replicate (2 ^ k) 0

/-- Embeds the assignment loop `poly[i] = val` (`main.rs:181-183`): write the
witness values into the polynomial at indices `0, 1, ...` in order.  A write
past the end of the vector is an out-of-bounds panic in Rust, modelled as
the typed `domainOverflow` error. -/
def assignAll : List Fr → Nat → List Fr → Except DomainError (List Fr)
  | poly, _, [] => .ok poly
  | poly, i, v :: rest =>
    if i < poly.length then assignAll (poly.set i v) (i + 1) rest
    else .error .domainOverflow

/-- The witness-to-polynomial mapping (`main.rs:180-183`): start from the
empty (all-zero) Lagrange vector of length `2^k` and write the witness
values at the leading indices. -/
def domainMap (k : Nat) (w : List Fr) : Except DomainError (List Fr) :=
  assignAll (empty_lagrange k) 0 w

/-- Error kinds of the consistency validator (§4.5/§7), the union of the
component errors plus `mismatchError`, which carries both differing
commitments (the `assert_eq!` panic at `main.rs:200` prints both values; it
is modelled as the typed error carrying them). -/
inductive ValidateError (G : Type) where
  | domainOverflow
  | lengthMismatch
  | transcriptUnderflow
  | pointDecodeError
  | mismatchError (halo2Commitment plainCommitment : G)
  deriving DecidableEq

/-- Embeds the consistency validator (`main` steps 9-10 and the final
comparison, `main.rs:159-200`, §4.5): extract the single advice-column
commitment from the proof bytes at column index 0, map the witness onto the
domain, commit directly with blind 0, and compare the two commitments under
structural equality, failing with `mismatchError` carrying both values when
they differ. -/
def validate (M : CurveModel) (H : M.G) (k : Nat) (ck : CommitmentKey M.G)
    (proofBytes : List Nat) (w : List Fr) : Except (ValidateError M.G) Unit :=
  match extract_commitments M proofBytes 1 with
  | .error .transcriptUnderflow => .error .transcriptUnderflow
  | .error .pointDecodeError => .error .pointDecodeError
  | .ok cs =>
    let halo2Commitment := cs.getD 0 0
    match domainMap k w with
    | .error .domainOverflow => .error .domainOverflow
    | .ok poly =>
      match commit M H ck poly 0 with
      | .error .lengthMismatch => .error .lengthMismatch
      | .ok plainCommitment =>
        if halo2Commitment = plainCommitment then .ok ()
        else .error (.mismatchError halo2Commitment plainCommitment)

/-- Modelled from the spec: the external proving pipeline (`keygen_vk`,
`keygen_pk`, `create_proof` of `halo2_proofs`, `main.rs:135-156`) is a
black-box collaborator (§2, §4.5 step 3, §6, §9).  Per §4.4/§6 it writes the
commitment to the circuit's single advice column — the KZG commitment of the
domain-mapped witness under the same key, with the blinding factor for the
demonstrated column being zero (§9) — as the first point of the transcript,
followed by the remaining proof bytes.  Internal pipeline failures yield
`none`. -/
def pipelineProof (M : CurveModel) (H : M.G) (k : Nat) (ck : CommitmentKey M.G)
    (w : List Fr) (rest : List Nat) : Option (List Nat) :=
  match domainMap k w with
  | .error _ => none
  | .ok poly =>
    match commit M H ck poly 0 with
    | .error _ => none
    | .ok c => some (writePoints M [c] ++ rest)

/-- Concrete 32-element commitment key over the concrete model, used to
evaluate the theorems on the `k = 5` scenario. -/
def key32 : CommitmentKey Fr :=
  ⟨(List.range 32).map (fun i => ((i + 2 : Nat) : Fr))⟩

instance {ε α : Type} [DecidableEq ε] [DecidableEq α] : DecidableEq (Except ε α) :=
  fun x y =>
    match x, y with
    | .ok a, .ok b =>
      if h : a = b then .isTrue (by rw [h])
      else .isFalse (by intro he; cases he; exact h rfl)
    | .error e, .error f =>
      if h : e = f then .isTrue (by rw [h])
      else .isFalse (by intro he; cases he; exact h rfl)
    | .ok _, .error _ => .isFalse (by intro he; cases he)
    | .error _, .ok _ => .isFalse (by intro he; cases he)

/-- Dropping from a replicated list leaves a shorter replicated list. -/
theorem drop_replicate {α : Type} (a : α) :
    ∀ (n m : Nat), (List.replicate n a).drop m = List.replicate (n - m) a := by
  intro n
  induction n with
  | zero => intro m; simp
  | succ n ih =>
    intro m
    cases m with
    | zero => simp
    | succ m =>
      rw [List.replicate_succ, List.drop_succ_cons, ih m, Nat.succ_sub_succ]

/-- Characterization of the assignment loop: writing `w` into `pre ++ post`
starting at index `pre.length` succeeds exactly when `w` fits into `post`,
overwriting its leading values, and signals the overflow otherwise. -/
theorem assignAll_eq :
    ∀ (w pre post : List Fr),
      assignAll (pre ++ post) pre.length w =
        if w.length ≤ post.length then .ok (pre ++ w ++ post.drop w.length)
        else .error .domainOverflow := by
  intro w
  induction w with
  | nil => intro pre post; simp [assignAll]
  | cons v rest ih =>
    intro pre post
    cases post with
    | nil =>
      simp [assignAll]
    | cons c post =>
      have hlt : pre.length < (pre ++ c :: post).length := by
        simp [List.length_append]
      have hset : (pre ++ c :: post).set pre.length v = (pre ++ [v]) ++ post := by
        rw [List.set_append_right pre.length v (Nat.le_refl _), Nat.sub_self]
        simp
      have hlen : pre.length + 1 = (pre ++ [v]).length := by
        simp
      rw [assignAll, if_pos hlt, hset, hlen, ih (pre ++ [v]) post]
      by_cases hfit : rest.length ≤ post.length
      · rw [if_pos hfit, if_pos (by simpa using Nat.succ_le_succ hfit)]
        simp [List.drop_succ_cons]
      · rw [if_neg hfit, if_neg (by simpa using fun h => hfit (Nat.le_of_succ_le_succ h))]

/-- Characterization of the witness-to-polynomial mapping: a witness that fits
into the domain is zero-padded to length `2^k`; a longer witness overflows. -/
theorem domainMap_eq (k : Nat) (w : List Fr) :
    domainMap k w =
      if w.length ≤ 2 ^ k then .ok (w ++ List.replicate (2 ^ k - w.length) 0)
      else .error .domainOverflow := by
  have h := assignAll_eq w [] (List.replicate (2 ^ k) 0)
  simp only [List.nil_append, List.length_nil] at h
  rw [domainMap, empty_lagrange, h, List.length_replicate, drop_replicate]

/-- Unfolding lemma for one read step of the commitment extraction loop. -/
theorem extract_commitments_succ (M : CurveModel) (proof : List Nat) (n : Nat) :
    extract_commitments M proof (n + 1) =
      match read_point M proof with
      | .error e => .error e
      | .ok pr => (extract_commitments M pr.2 n).map (fun ps => pr.1 :: ps) := by
  simp only [extract_commitments]
  cases read_point M proof with
  | error e => rfl
  | ok pr =>
    obtain ⟨p, rest⟩ := pr
    cases h : extract_commitments M rest n <;> simp [Except.map, h]

/-- Reading past a prefix of well-formed point encodings: extracting
`pts.length + n` points from the serialization of `pts` followed by any
remainder yields `pts` followed by whatever extracting `n` points from the
remainder yields (and propagates its error). -/
theorem extract_append (M : CurveModel) (pts : List M.G) (rest : List Nat) (n : Nat) :
    extract_commitments M (writePoints M pts ++ rest) (pts.length + n) =
      (extract_commitments M rest n).map (fun ps => pts ++ ps) := by
  induction pts with
  | nil =>
    simp only [writePoints, List.nil_append, List.length_nil, Nat.zero_add]
    cases h : extract_commitments M rest n <;> simp [Except.map, h]
  | cons p ps ih =>
    simp only [writePoints, List.append_assoc, List.length_cons]
    rw [Nat.add_right_comm, extract_commitments_succ]
    have hrp : read_point M (M.enc p ++ (writePoints M ps ++ rest)) =
        .ok (p, writePoints M ps ++ rest) := by
      simp only [read_point, List.take_left' (M.enc_len p), List.drop_left' (M.enc_len p),
        M.enc_len p, M.dec_enc p]
      simp
    rw [hrp]
    show (extract_commitments M (writePoints M ps ++ rest) (ps.length + n)).map
        (fun ps' => p :: ps') = _
    rw [ih]
    cases h : extract_commitments M rest n <;> simp [Except.map, h]

/-- Claim C2: for every domain exponent `k` and witness of length `m ≤ 2^k`, the
witness-to-polynomial mapping produces a sequence of exactly `2^k` scalars
in which every index `i < m` holds `witness[i]` and every index `i ≥ m`
holds the scalar field's additive identity. -/
theorem c2_domain_zero_padding (k : Nat) (w : List Fr) (h : w.length ≤ 2 ^ k) :
    ∃ poly, domainMap k w = .ok poly ∧ poly.length = 2 ^ k ∧
      (∀ i, i < w.length → poly.getD i 0 = w.getD i 0) ∧
      (∀ i, w.length ≤ i → i < 2 ^ k → poly.getD i 0 = 0) := by
  refine ⟨w ++ List.replicate (2 ^ k - w.length) 0, ?_, ?_, ?_, ?_⟩
  · rw [domainMap_eq, if_pos h]
  · simp only [List.length_append, List.length_replicate]
    omega
  · intro i hi
    exact List.getD_append _ _ _ _ hi
  · intro i hle hlt
    rw [List.getD_append_right _ _ _ _ hle]
    simp only [List.getD, List.getElem?_replicate]
    by_cases hc : i - w.length < 2 ^ k - w.length <;> simp [hc]

/-- Witness for the zero-padding theorem at the concrete scenario of the spec:
witness `[1, 0, 1]` with `k = 5` maps to the 32-entry sequence
`[1, 0, 1, 0, ..., 0]`. -/
theorem c2_domain_zero_padding_witness :
    [(1 : Fr), 0, 1].length ≤ 2 ^ 5 ∧
    domainMap 5 [(1 : Fr), 0, 1] = .ok ([1, 0, 1] ++ List.replicate 29 0) ∧
    (∃ poly, domainMap 5 [(1 : Fr), 0, 1] = .ok poly ∧ poly.length = 2 ^ 5 ∧
      (∀ i, i < [(1 : Fr), 0, 1].length → poly.getD i 0 = [(1 : Fr), 0, 1].getD i 0) ∧
      (∀ i, [(1 : Fr), 0, 1].length ≤ i → i < 2 ^ 5 → poly.getD i 0 = 0)) :=
  ⟨by decide, by decide, c2_domain_zero_padding 5 [1, 0, 1] (by decide)⟩

/-- Claim C3: a witness of length exactly `2^k` succeeds, while a witness strictly
longer than `2^k` makes the mapping fail with the `DomainOverflow` error —
it is never silently truncated. -/
theorem c3_domain_length_boundary (k : Nat) (w : List Fr) :
    (w.length = 2 ^ k → ∃ poly, domainMap k w = .ok poly) ∧
    (2 ^ k < w.length → domainMap k w = .error .domainOverflow) := by
  constructor
  · intro h
    exact ⟨_, by rw [domainMap_eq, if_pos (Nat.le_of_eq h)]⟩
  · intro h
    rw [domainMap_eq, if_neg (by omega)]

/-- Witness for the length-boundary theorem: length `2^0 = 1` succeeds, length
`2^0 + 1 = 2` fails with `DomainOverflow`. -/
theorem c3_domain_length_boundary_witness :
    [(0 : Fr)].length = 2 ^ 0 ∧ (∃ poly, domainMap 0 [(0 : Fr)] = .ok poly) ∧
    2 ^ 0 < [(0 : Fr), 0].length ∧
    domainMap 0 [(0 : Fr), 0] = .error .domainOverflow :=
  ⟨by decide, (c3_domain_length_boundary 0 [0]).1 (by decide), by decide,
    (c3_domain_length_boundary 0 [0, 0]).2 (by decide)⟩

/-- Claim C9: for every witness of length at most `2^k` the mapping succeeds — it
performs no validation beyond the length check and is a total function of
its inputs; conversely, its only failure case is `DomainOverflow`, on a
witness strictly longer than the domain. -/
theorem c9_domain_map_total (k : Nat) (w : List Fr) :
    (w.length ≤ 2 ^ k → ∃ poly, domainMap k w = .ok poly) ∧
    (∀ e, domainMap k w = .error e → 2 ^ k < w.length ∧ e = .domainOverflow) := by
  constructor
  · intro h
    exact ⟨_, by rw [domainMap_eq, if_pos h]⟩
  · intro e he
    rw [domainMap_eq] at he
    by_cases h : w.length ≤ 2 ^ k
    · rw [if_pos h] at he
      exact Except.noConfusion he
    · rw [if_neg h] at he
      injection he with h2
      exact ⟨by omega, h2.symm⟩

/-- Witness for totality: the spec's concrete witness succeeds, and a failing
run is only the overflow case. -/
theorem c9_domain_map_total_witness :
    [(1 : Fr), 0, 1].length ≤ 2 ^ 5 ∧
    (∃ poly, domainMap 5 [(1 : Fr), 0, 1] = .ok poly) ∧
    domainMap 0 [(0 : Fr), 0] = .error .domainOverflow ∧
    2 ^ 0 < [(0 : Fr), 0].length :=
  ⟨by decide, (c9_domain_map_total 5 [1, 0, 1]).1 (by decide), by decide,
    ((c9_domain_map_total 0 [0, 0]).2 .domainOverflow (by decide)).1⟩

/-- Claim C4: the KZG commit operation requires the evaluation vector and the
commitment key basis to have equal lengths, succeeding with the MSM value
exactly then and failing with the `LengthMismatch` error whenever the
lengths differ. -/
theorem c4_kzg_length_check (M : CurveModel) (ck : CommitmentKey M.G)
    (evals : List Fr) :
    (evals.length = ck.lagranges.length →
      plain_kzg_com M ck evals = .ok (msm M ck.lagranges evals)) ∧
    (evals.length ≠ ck.lagranges.length →
      plain_kzg_com M ck evals = .error .lengthMismatch) := by
  constructor
  · intro h
    unfold plain_kzg_com
    rw [if_pos h]
  · intro h
    unfold plain_kzg_com
    rw [if_neg h]

/-- Witness for the length check: a 1-element evaluation vector against the
32-element key fails with `LengthMismatch`; the full-length vector commits
(to `1•2 + 0•3 + 1•4 = 6` over the concrete model). -/
theorem c4_kzg_length_check_witness :
    [(1 : Fr)].length ≠ key32.lagranges.length ∧
    plain_kzg_com bnModel key32 [(1 : Fr)] = .error .lengthMismatch ∧
    ([(1 : Fr), 0, 1] ++ List.replicate 29 0).length = key32.lagranges.length ∧
    plain_kzg_com bnModel key32 ([(1 : Fr), 0, 1] ++ List.replicate 29 0) = .ok ((6 : Fr)) :=
  ⟨by decide, (c4_kzg_length_check bnModel key32 [1]).2 (by decide), by decide, by decide⟩

/-- Claim C10: extracting zero advice-column commitments returns the empty vector on
every byte buffer, including empty or malformed ones, without decoding any
point. -/
theorem c10_extract_zero_columns (M : CurveModel) (proof : List Nat) :
    extract_commitments M proof 0 = .ok [] := rfl

/-- Witness for zero-column extraction on a malformed 1-byte buffer. -/
theorem c10_extract_zero_columns_witness :
    extract_commitments bnModel [255] 0 = .ok [] :=
  c10_extract_zero_columns bnModel [255]

/-- Claim C6: transcript round trip — writing any sequence of `N` points through the
codec's write mode and reading the resulting byte buffer back through read
mode with the same declared count `N` yields the original points in the
original append order. -/
theorem c6_transcript_round_trip (M : CurveModel) (pts : List M.G) :
    extract_commitments M (writePoints M pts) pts.length = .ok pts := by
  have h := extract_append M pts [] 0
  simpa [extract_commitments, Except.map] using h

/-- Witness for the round trip on two concrete points. -/
theorem c6_transcript_round_trip_witness :
    extract_commitments bnModel (writePoints bnModel [(3 : Fr), (7 : Fr)]) 2 =
      .ok [(3 : Fr), (7 : Fr)] :=
  c6_transcript_round_trip bnModel [(3 : Fr), (7 : Fr)]

/-- Claim C5: transcript read-mode extraction fails with the `TranscriptUnderflow`
error when fewer than the declared number of well-formed points remain in
the buffer (the buffer is a prefix of encoded points followed by fewer than
32 further bytes), and with the `PointDecodeError` error when the next
fixed-size chunk does not decode to a valid curve point; both are typed
results. -/
theorem c5_transcript_read_errors (M : CurveModel) (pts : List M.G) (N : Nat) :
    (∀ tail : List Nat, tail.length < 32 → pts.length < N →
      extract_commitments M (writePoints M pts ++ tail) N =
        .error .transcriptUnderflow) ∧
    (∀ chunk rest : List Nat, chunk.length = 32 → M.dec chunk = none →
      pts.length < N →
      extract_commitments M (writePoints M pts ++ chunk ++ rest) N =
        .error .pointDecodeError) := by
  constructor
  · intro tail htail hlt
    obtain ⟨m, hm⟩ : ∃ m, N = pts.length + (m + 1) := ⟨N - pts.length - 1, by omega⟩
    subst hm
    rw [extract_append, extract_commitments_succ]
    have hrp : read_point M tail = .error .transcriptUnderflow := by
      unfold read_point
      rw [if_pos (by simp only [List.length_take]; omega)]
    rw [hrp]
    rfl
  · intro chunk rest hchunk hdec hlt
    obtain ⟨m, hm⟩ : ∃ m, N = pts.length + (m + 1) := ⟨N - pts.length - 1, by omega⟩
    subst hm
    rw [List.append_assoc, extract_append, extract_commitments_succ]
    have hrp : read_point M (chunk ++ rest) = .error .pointDecodeError := by
      unfold read_point
      rw [List.take_left' hchunk, hchunk, if_neg (by omega), hdec]
    rw [hrp]
    rfl

/-- Witness for the transcript error cases: after one well-formed point,
reading two points from an exhausted buffer underflows, and a 32-byte chunk
of `0xff` bytes (value `≥ bnR`) fails to decode. -/
theorem c5_transcript_read_errors_witness :
    ([] : List Nat).length < 32 ∧ [(5 : Fr)].length < 2 ∧
    extract_commitments bnModel (writePoints bnModel [(5 : Fr)] ++ []) 2 =
      .error .transcriptUnderflow ∧
    (List.replicate 32 255).length = 32 ∧
    bnModel.dec (List.replicate 32 255) = none ∧
    extract_commitments bnModel
        (writePoints bnModel [(5 : Fr)] ++ List.replicate 32 255 ++ []) 2 =
      .error .pointDecodeError :=
  ⟨by decide, by decide,
    (c5_transcript_read_errors bnModel [(5 : Fr)] 2).1 [] (by decide) (by decide),
    by decide, by decide,
    (c5_transcript_read_errors bnModel [(5 : Fr)] 2).2 (List.replicate 32 255) []
      (by decide) (by decide) (by decide)⟩

/-- Claim C7: the evaluation-domain mapping and the KZG commit operation are
deterministic — two invocations with identical key, evaluations, and blind
(respectively identical domain exponent and witness) produce identical
outputs; neither operation contains internal randomness. -/
theorem c7_deterministic (M : CurveModel) (H : M.G) (ck1 ck2 : CommitmentKey M.G)
    (e1 e2 : List Fr) (b1 b2 : Fr) (k1 k2 : Nat) (w1 w2 : List Fr) :
    (ck1 = ck2 → e1 = e2 → b1 = b2 →
      commit M H ck1 e1 b1 = commit M H ck2 e2 b2) ∧
    (k1 = k2 → w1 = w2 → domainMap k1 w1 = domainMap k2 w2) := by
  constructor
  · intro h1 h2 h3
    rw [h1, h2, h3]
  · intro h1 h2
    rw [h1, h2]

/-- Witness for determinism: the concrete commit and mapping agree with
themselves and the commit evaluates to a unique reproducible value. -/
theorem c7_deterministic_witness :
    commit bnModel ((7 : Fr)) key32 ([(1 : Fr), 0, 1] ++ List.replicate 29 0) 0 =
      commit bnModel ((7 : Fr)) key32 ([(1 : Fr), 0, 1] ++ List.replicate 29 0) 0 ∧
    domainMap 5 [(1 : Fr), 0, 1] = domainMap 5 [(1 : Fr), 0, 1] ∧
    commit bnModel ((7 : Fr)) key32 ([(1 : Fr), 0, 1] ++ List.replicate 29 0) 0 =
      .ok ((6 : Fr)) :=
  ⟨(c7_deterministic bnModel ((7 : Fr)) key32 key32
      ([(1 : Fr), 0, 1] ++ List.replicate 29 0) ([(1 : Fr), 0, 1] ++ List.replicate 29 0)
      0 0 5 5 [1, 0, 1] [1, 0, 1]).1 rfl rfl rfl,
    (c7_deterministic bnModel ((7 : Fr)) key32 key32
      ([(1 : Fr), 0, 1] ++ List.replicate 29 0) ([(1 : Fr), 0, 1] ++ List.replicate 29 0)
      0 0 5 5 [1, 0, 1] [1, 0, 1]).2 rfl rfl,
    by decide⟩

/-- Claim C8: whenever the transcript-extracted commitment and the directly computed
commitment are unequal under structural equality, the consistency validator
fails with the `MismatchError` error carrying both differing commitment
values — it is never coerced into a generic failure without them. -/
theorem c8_validator_mismatch (M : CurveModel) (H : M.G) (k : Nat)
    (ck : CommitmentKey M.G) (proofBytes : List Nat) (w : List Fr)
    (a b : M.G) (poly : List Fr)
    (hex : extract_commitments M proofBytes 1 = .ok [a])
    (hmap : domainMap k w = .ok poly)
    (hcom : commit M H ck poly 0 = .ok b)
    (hne : a ≠ b) :
    validate M H k ck proofBytes w = .error (.mismatchError a b) := by
  unfold validate
  rw [hex, hmap]
  show (match commit M H ck poly 0 with
    | .error KzgError.lengthMismatch =>
      (.error .lengthMismatch : Except (ValidateError M.G) Unit)
    | .ok plainCommitment =>
      if [a].getD 0 0 = plainCommitment then .ok ()
      else .error (.mismatchError ([a].getD 0 0) plainCommitment)) =
    .error (.mismatchError a b)
  rw [hcom]
  show (if a = b then (.ok () : Except (ValidateError M.G) Unit)
      else .error (.mismatchError a b)) = .error (.mismatchError a b)
  rw [if_neg hne]

/-- Witness for mismatch detection: a proof transcript carrying the point `5`
against a direct commitment of `6` fails with `mismatchError 5 6`. -/
theorem c8_validator_mismatch_witness :
    extract_commitments bnModel (writePoints bnModel [(5 : Fr)]) 1 = .ok [(5 : Fr)] ∧
    domainMap 5 [(1 : Fr), 0, 1] = .ok ([1, 0, 1] ++ List.replicate 29 0) ∧
    commit bnModel ((7 : Fr)) key32 ([(1 : Fr), 0, 1] ++ List.replicate 29 0) 0 =
      .ok ((6 : Fr)) ∧
    (5 : Fr) ≠ 6 ∧
    validate bnModel ((7 : Fr)) 5 key32 (writePoints bnModel [(5 : Fr)]) [1, 0, 1] =
      .error (.mismatchError ((5 : Fr)) ((6 : Fr))) :=
  ⟨by decide, by decide, by decide, by decide, by
    have hne : ((5 : Fr) : bnModel.G) ≠ ((6 : Fr) : bnModel.G) := by decide
    exact c8_validator_mismatch bnModel ((7 : Fr)) 5 key32
      (writePoints bnModel [(5 : Fr)]) [1, 0, 1] ((5 : Fr)) ((6 : Fr))
      ([(1 : Fr), 0, 1] ++ List.replicate 29 0)
      (by decide) (by decide) (by decide) hne⟩

/-- Claim C1: for every witness that fits the domain and a commitment key of the
domain's size, the commitment computed by the direct path — the KZG commit
of the domain-mapped evaluations with blind 0 — equals the commitment
extracted at column index 0 from the transcript of a proof generated by the
proving pipeline over the same witness and key. -/
theorem c1_commit_paths_agree (M : CurveModel) (H : M.G) (k : Nat)
    (ck : CommitmentKey M.G) (w : List Fr) (rest : List Nat)
    (hw : w.length ≤ 2 ^ k) (hck : ck.lagranges.length = 2 ^ k) :
    ∃ poly c proof,
      domainMap k w = .ok poly ∧
      commit M H ck poly 0 = .ok c ∧
      pipelineProof M H k ck w rest = some proof ∧
      extract_commitments M proof 1 = .ok [c] := by
  have hmap : domainMap k w = .ok (w ++ List.replicate (2 ^ k - w.length) 0) := by
    rw [domainMap_eq, if_pos hw]
  have hlen : (w ++ List.replicate (2 ^ k - w.length) 0).length = ck.lagranges.length := by
    simp only [List.length_append, List.length_replicate, hck]
    omega
  have hcom : commit M H ck (w ++ List.replicate (2 ^ k - w.length) 0) 0 =
      .ok (msm M ck.lagranges (w ++ List.replicate (2 ^ k - w.length) 0) + (0 : Fr) • H) := by
    unfold commit
    rw [if_pos hlen]
  refine ⟨w ++ List.replicate (2 ^ k - w.length) 0,
    msm M ck.lagranges (w ++ List.replicate (2 ^ k - w.length) 0) + (0 : Fr) • H,
    writePoints M
      [msm M ck.lagranges (w ++ List.replicate (2 ^ k - w.length) 0) + (0 : Fr) • H] ++ rest,
    hmap, hcom, ?_, ?_⟩
  · unfold pipelineProof
    rw [hmap]
    show (match commit M H ck (w ++ List.replicate (2 ^ k - w.length) 0) 0 with
      | .error _ => none
      | .ok c => some (writePoints M [c] ++ rest)) = _
    rw [hcom]
  · have h := extract_append M
      [msm M ck.lagranges (w ++ List.replicate (2 ^ k - w.length) 0) + (0 : Fr) • H] rest 0
    simpa [extract_commitments, Except.map] using h

/-- Witness for path agreement at the concrete scenario: witness `[1, 0, 1]`,
`k = 5`, column index 0; the pipeline transcript opens with the encoding of
the direct commitment `6`, and extraction returns exactly that point. -/
theorem c1_commit_paths_agree_witness :
    [(1 : Fr), 0, 1].length ≤ 2 ^ 5 ∧ key32.lagranges.length = 2 ^ 5 ∧
    pipelineProof bnModel ((7 : Fr)) 5 key32 [1, 0, 1] [] = some (bnEnc 6) ∧
    extract_commitments bnModel (bnEnc 6) 1 = .ok [(6 : Fr)] ∧
    (∃ poly c proof,
      domainMap 5 [(1 : Fr), 0, 1] = .ok poly ∧
      commit bnModel ((7 : Fr)) key32 poly 0 = .ok c ∧
      pipelineProof bnModel ((7 : Fr)) 5 key32 [1, 0, 1] [] = some proof ∧
      extract_commitments bnModel proof 1 = .ok [c]) :=
  ⟨by decide, by decide, by decide, by decide,
    c1_commit_paths_agree bnModel ((7 : Fr)) 5 key32 [1, 0, 1] [] (by decide) (by decide)⟩
